import Mathlib

/-!
Shallow embedding of the identity service of cothority
(src/services/identity/service.go) together with theorems about its
propose/vote/commit protocol.

Modelling conventions, all taken from the source file:
  - Go maps (`map[string]*SchnorrSig`, `map[string]*storage`) become
    association lists with unique keys; `minsert` overwrites the binding of
    an existing key in place, matching Go map assignment.
  - Opaque crypto values (public-key points, Schnorr signatures, digests)
    become `Nat`; `crypto.VerifySchnorr` and `Config.Hash` become function
    parameters. `Config.Hash` marshals a well-formed in-memory struct, so its
    error branch (service.go line 161) is modelled as unreachable and the
    digest function is total.
  - The skipchain client is external to the repository; its two calls used
    here (`CreateRoster`/`CreateData` in AddIdentity, `ProposeData` in
    ProposeVote) are `Except`-valued parameters.  A skipblock's `Data` field
    is carried in already-decoded form: `payload = some c` means
    `network.UnmarshalRegistered` succeeds and yields the config `c`,
    `payload = none` means unmarshalling (or the `*Config` cast) fails.
  - `manage.PropagateStartAndWait` is not under src/; per spec section 4.2 it
    is a best-effort broadcast that applies the event on every roster member
    (the initiating server included, since its own service handler is
    registered like the others) and never fails the caller for missing
    acknowledgements.  It is modelled as total application of `Propagate` to
    each replica; transport failures are outside the embedding.
  - Locks (`sid.Lock`, `identitiesMutex`) serialize access and have no
    sequential content; they are dropped.
  - Go nil-pointer semantics are kept: service.go line 152 evaluates
    `sid.Proposed.Device` as a logging argument before any check, which
    panics when `Proposed` is nil; line 194 evaluates `msg.(*Config).Device`
    after discarding the unmarshalling error, which panics when the committed
    payload does not decode.  Both panics are modelled as dedicated error
    values.
-/

namespace Identity

/-- Public-key points are opaque crypto values; modelled as Nat. -/
abbrev Pub := Nat

/-- Message digests (the output of Config.Hash) are opaque; modelled as Nat. -/
abbrev Hsh := Nat

/-- Schnorr signatures are opaque crypto values; modelled as Nat. -/
abbrev Sig := Nat

/-- Lookup in an association list, the model of reading a Go map
(`m[k]` returning the value and `ok`). -/
def mlookup [BEq κ] (m : List (κ × α)) (k : κ) : Option α :=
  match m with
  | [] => none
  | (ka, v) :: rest => if ka == k then some v else mlookup rest k

/-- Key-membership in an association list, the model of the `_, ok := m[k]`
idiom on a Go map. -/
def mcontainsKey [BEq κ] (m : List (κ × α)) (k : κ) : Bool :=
  match m with
  | [] => false
  | (ka, _) :: rest => ka == k || mcontainsKey rest k

/-- Insertion into an association list, the model of Go map assignment
`m[k] = v`: overwrites the binding of an existing key, appends a fresh one. -/
def minsert [BEq κ] (m : List (κ × α)) (k : κ) (v : α) : List (κ × α) :=
  match m with
  | [] => [(k, v)]
  | (ka, va) :: rest => if ka == k then (k, v) :: rest else (ka, va) :: minsert rest k v

/-- The keys of an association list. -/
def mkeys (m : List (κ × α)) : List κ :=
  m.map Prod.fst

/-- Config of an identity: the device map `Device` (name to public-key point,
the only field of the per-device struct that service.go reads) and the vote
`Threshold`.  The key/value payload of a config plays no role in the service
logic and is omitted. -/
structure Config where
  Threshold : Nat
  Device : List (String × Pub)
deriving Repr, DecidableEq

/-- A skipblock of the external skipchain: its hash (identity ids are block
hashes) and its data payload in decoded form (`none` models a payload on
which `network.UnmarshalRegistered` or the cast to `*Config` fails). -/
structure SkipBlock where
  hash : Nat
  payload : Option Config
deriving Repr, DecidableEq

/-- The per-identity, per-replica store (struct `storage` of service.go):
latest committed config, pending proposal, votes of the current round, and
the root/data skipchain references. -/
structure Storage where
  Latest : Config
  Proposed : Option Config
  Votes : List (String × Option Sig)
  Root : SkipBlock
  Data : SkipBlock
deriving Repr, DecidableEq

/-- The `*ProposeSend` arm of Service.Propagate (service.go lines 256-259):
overwrite Proposed, allocate a fresh empty Votes map. -/
def applyProposeSend (sid : Storage) (config : Config) : Storage :=
  { sid with Proposed := some config, Votes := [] }

/-- The `*ProposeVote` arm of Service.Propagate (service.go lines 260-262):
`sid.Votes[v.Signer] = v.Signature`, an unconditional map assignment. -/
def applyProposeVoteMsg (sid : Storage) (signer : String) (signature : Option Sig) : Storage :=
  { sid with Votes := minsert sid.Votes signer signature }

/-- The `*UpdateSkipBlock` arm of Service.Propagate (service.go lines
263-277): decode the block payload; on failure log and leave the store
untouched; on success set Data to the block, Latest to the decoded config and
clear Proposed.  The source does not touch Votes in this arm. -/
def applyUpdateSkipBlock (sid : Storage) (skipblock : SkipBlock) : Storage :=
  match skipblock.payload with
  | none => sid
  | some al => { sid with Data := skipblock, Latest := al, Proposed := none }

/-- The four propagated event kinds dispatched by Service.Propagate. -/
inductive PropagateMsg where
  | proposeSend (id : Nat) (config : Config)
  | proposeVote (id : Nat) (signer : String) (signature : Option Sig)
  | updateSkipBlock (id : Nat) (latest : SkipBlock)
  | propagateIdentity (stor : Storage)
deriving Repr, DecidableEq

/-- The identity registry of one server: `Service.identities`, a map from
identity id (genesis data-block hash) to its store. -/
abbrev Registry := List (Nat × Storage)

/-- Service.Propagate (service.go lines 225-280) applied to one server's
registry.  A `PropagateIdentity` whose id is already present is ignored
(logged, never overwritten); the other events are ignored when the id is
unknown, else they mutate the store in place. -/
def Propagate (reg : Registry) (msg : PropagateMsg) : Registry :=
  match msg with
  | .propagateIdentity stor =>
      if mcontainsKey reg stor.Data.hash then reg
      else minsert reg stor.Data.hash stor
  | .proposeSend id config =>
      match mlookup reg id with
      | none => reg
      | some sid => minsert reg id (applyProposeSend sid config)
  | .proposeVote id signer signature =>
      match mlookup reg id with
      | none => reg
      | some sid => minsert reg id (applyProposeVoteMsg sid signer signature)
  | .updateSkipBlock id latest =>
      match mlookup reg id with
      | none => reg
      | some sid => minsert reg id (applyUpdateSkipBlock sid latest)

/-- The commit condition of Service.ProposeVote (service.go lines 181-182):
`len(sid.Votes) >= sid.Latest.Threshold || len(sid.Votes) == len(sid.Latest.Device)`. -/
def quorumReached (sid : Storage) : Bool :=
  decide (sid.Latest.Threshold ≤ sid.Votes.length) || sid.Votes.length == sid.Latest.Device.length

/-- Outcomes of ProposeVote other than success, one per `return nil, err`
path of service.go, plus the two modelled Go runtime panics. -/
inductive VoteErr where
  /-- Line 152 evaluates `sid.Proposed.Device` with a nil Proposed pointer. -/
  | nilDerefPanic
  /-- Line 155: the signer is not in `sid.Latest.Device`. -/
  | signerUnknown
  /-- Line 158: `sid.Proposed == nil` (dead code, see `nilDerefPanic`). -/
  | noProposal
  /-- Line 165: the signer already has a vote recorded. -/
  | duplicateVote
  /-- Line 171: `crypto.VerifySchnorr` rejects the signature. -/
  | badSignature
  /-- Line 191: `skipchain.ProposeData` fails. -/
  | ledgerErr
  /-- Line 194 type-asserts the unmarshalled payload while discarding the
  unmarshalling error, panicking when the payload does not decode. -/
  | nilAssertPanic
deriving Repr, DecidableEq

/-- The commit block of Service.ProposeVote (lines 183-204): append a new
data skipblock holding the proposed config, then propagate the committed
block, which locally applies `applyUpdateSkipBlock`, and return the store's
Data reference. -/
def commitStep (proposeData : SkipBlock → SkipBlock → Config → Except Unit SkipBlock)
    (proposed : Config) (sid : Storage) : Storage × Except VoteErr (Option SkipBlock) :=
  match proposeData sid.Root sid.Data proposed with
  | .error _ => (sid, .error .ledgerErr)
  | .ok latest =>
      match latest.payload with
      | none => (sid, .error .nilAssertPanic)
      | some _ =>
          let sid2 := applyUpdateSkipBlock sid latest
          (sid2, .ok (some sid2.Data))

/-- Service.ProposeVote (service.go lines 145-207) on the store of a known
identity.  Returns the resulting local store together with either an error or
the optional committed block (`none` models the `return nil, nil` of an unmet
quorum).  Control flow follows the source: dereference of `Proposed` in the
logging call, signer lookup, (dead) nil-proposal check, digest, duplicate
check, signature verification only for a non-nil signature, propagation of
the vote (recorded locally by `applyProposeVoteMsg`), then the quorum check
and, when it holds, `commitStep`. -/
def ProposeVote (verify : Pub → Hsh → Sig → Bool) (hashConfig : Config → Hsh)
    (proposeData : SkipBlock → SkipBlock → Config → Except Unit SkipBlock)
    (sid : Storage) (signer : String) (signature : Option Sig) :
    Storage × Except VoteErr (Option SkipBlock) :=
  match sid.Proposed with
  | none => (sid, .error .nilDerefPanic)
  | some proposed =>
      match mlookup sid.Latest.Device signer with
      | none => (sid, .error .signerUnknown)
      | some owner =>
          let hsh := hashConfig proposed
          if mcontainsKey sid.Votes signer then (sid, .error .duplicateVote)
          else
            let afterVote :=
              let sid1 := applyProposeVoteMsg sid signer signature
              if quorumReached sid1 then commitStep proposeData proposed sid1
              else (sid1, .ok none)
            match signature with
            | some s => if verify owner hsh s then afterVote else (sid, .error .badSignature)
            | none => afterVote

/-- Errors of AddIdentity: both `CreateRoster` and `CreateData` failures are
returned to the caller unchanged (lines 69-71, 75-77). -/
inductive AddErr where
  | ledgerErr
deriving Repr, DecidableEq

/-- Service.AddIdentity (service.go lines 60-93): create the root and data
skipchains, build the store (`storage{Latest: ai.Config}`, so Proposed nil
and Votes the empty map), propagate a PropagateIdentity event to every server
of the roster, and reply with the two chain references.  A shortfall of
propagation acknowledgements is only logged. -/
def AddIdentity (createRoster : Except Unit SkipBlock)
    (createData : SkipBlock → Except Unit (SkipBlock × SkipBlock))
    (replicas : List Registry) (config : Config) :
    Except AddErr (List Registry × SkipBlock × SkipBlock) :=
  match createRoster with
  | .error _ => .error .ledgerErr
  | .ok root0 =>
      match createData root0 with
      | .error _ => .error .ledgerErr
      | .ok (root, data) =>
          let ids : Storage :=
            { Latest := config, Proposed := none, Votes := [], Root := root, Data := data }
          let replicas2 := replicas.map (fun reg => Propagate reg (.propagateIdentity ids))
          .ok (replicas2, root, data)

/-- Key membership in an association list is membership among its keys. -/
theorem mcontainsKey_iff_mem [BEq κ] [LawfulBEq κ] (m : List (κ × α)) (k : κ) :
    mcontainsKey m k = true ↔ k ∈ mkeys m := by
  induction m with
  | nil => simp [mcontainsKey, mkeys]
  | cons hd tl ih =>
      cases hd with
      | mk ka va =>
          simp only [mcontainsKey, mkeys, List.map_cons, List.mem_cons, Bool.or_eq_true,
            beq_iff_eq]
          rw [← mkeys] at *
          constructor
          · rintro (h | h)
            · exact Or.inl h.symm
            · exact Or.inr (ih.mp h)
          · rintro (h | h)
            · exact Or.inl h.symm
            · exact Or.inr (ih.mpr h)

/-- A successful lookup puts the key among the keys. -/
theorem mem_mkeys_of_mlookup [BEq κ] [LawfulBEq κ] (m : List (κ × α)) (k : κ) (v : α)
    (h : mlookup m k = some v) : k ∈ mkeys m := by
  induction m with
  | nil => simp [mlookup] at h
  | cons hd tl ih =>
      cases hd with
      | mk ka va =>
          simp only [mlookup] at h
          by_cases hk : ka == k
          · simp only [mkeys, List.map_cons, List.mem_cons]
            exact Or.inl (eq_of_beq hk).symm
          · simp only [hk, Bool.false_eq_true, if_false] at h
            simp only [mkeys, List.map_cons, List.mem_cons]
            exact Or.inr (ih h)

/-- A contained key has some binding. -/
theorem mlookup_isSome_of_contains [BEq κ] [LawfulBEq κ] (m : List (κ × α)) (k : κ)
    (h : mcontainsKey m k = true) : ∃ v, mlookup m k = some v := by
  induction m with
  | nil => simp [mcontainsKey] at h
  | cons hd tl ih =>
      cases hd with
      | mk ka va =>
          simp only [mcontainsKey, Bool.or_eq_true] at h
          by_cases hk : ka == k
          · exact ⟨va, by simp [mlookup, hk]⟩
          · rcases h with h | h
            · exact absurd h (by simp [hk])
            · rcases ih h with ⟨v, hv⟩
              exact ⟨v, by simp [mlookup, hk, hv]⟩

/-- Inserting under a fresh key appends the binding. -/
theorem minsert_of_not_contains [BEq κ] (m : List (κ × α)) (k : κ) (v : α)
    (h : mcontainsKey m k = false) : minsert m k v = m ++ [(k, v)] := by
  induction m with
  | nil => simp [minsert]
  | cons hd tl ih =>
      cases hd with
      | mk ka va =>
          simp only [mcontainsKey, Bool.or_eq_false_iff] at h
          simp [minsert, h.1, ih h.2]

/-- Inserting under a present key keeps the map's size. -/
theorem length_minsert_of_contains [BEq κ] (m : List (κ × α)) (k : κ) (v : α)
    (h : mcontainsKey m k = true) : (minsert m k v).length = m.length := by
  induction m with
  | nil => simp [mcontainsKey] at h
  | cons hd tl ih =>
      cases hd with
      | mk ka va =>
          simp only [mcontainsKey, Bool.or_eq_true] at h
          by_cases hk : ka == k
          · simp [minsert, hk]
          · rcases h with h | h
            · exact absurd h (by simp [hk])
            · simp [minsert, hk, ih h]

/-- After an insert the key is bound to the inserted value. -/
theorem mlookup_minsert_self [BEq κ] [LawfulBEq κ] (m : List (κ × α)) (k : κ) (v : α) :
    mlookup (minsert m k v) k = some v := by
  induction m with
  | nil => simp [minsert, mlookup]
  | cons hd tl ih =>
      cases hd with
      | mk ka va =>
          by_cases hk : ka == k
          · simp [minsert, hk, mlookup]
          · simp [minsert, hk, mlookup, ih]

/-- Re-inserting the same binding is a no-op on the result of the insert. -/
theorem minsert_idem [BEq κ] [LawfulBEq κ] (m : List (κ × α)) (k : κ) (v : α) :
    minsert (minsert m k v) k v = minsert m k v := by
  induction m with
  | nil => simp [minsert]
  | cons hd tl ih =>
      cases hd with
      | mk ka va =>
          by_cases hk : ka == k
          · simp [minsert, hk]
          · simp [minsert, hk, ih]

/-- Concrete two-device config with a threshold exceeding the device count. -/
def cfgAB : Config := { Threshold := 3, Device := [("a", 1), ("b", 2)] }

/-- Concrete candidate config used as a pending proposal. -/
def cfgNew : Config := { Threshold := 2, Device := [("a", 1)] }

/-- Concrete root skipblock. -/
def rootBlk : SkipBlock := { hash := 0, payload := none }

/-- Concrete genesis data skipblock. -/
def dataBlk : SkipBlock := { hash := 1, payload := none }

/-- Concrete committed skipblock whose payload decodes to `cfgNew`. -/
def newBlk : SkipBlock := { hash := 2, payload := some cfgNew }

/-- Concrete store with an outstanding proposal and one recorded vote. -/
def sidB : Storage :=
  { Latest := cfgAB, Proposed := some cfgNew, Votes := [("b", none)],
    Root := rootBlk, Data := dataBlk }

/-- Concrete store of a known identity with no outstanding proposal. -/
def sidNoProp : Storage :=
  { Latest := cfgAB, Proposed := none, Votes := [], Root := rootBlk, Data := dataBlk }

/-- Verifier accepting every signature. -/
def alwaysTrue : Pub → Hsh → Sig → Bool := fun _ _ _ => true

/-- Verifier rejecting every signature. -/
def alwaysFalse : Pub → Hsh → Sig → Bool := fun _ _ _ => false

/-- Constant digest function. -/
def zeroHash : Config → Hsh := fun _ => 0

/-- Ledger stub whose append always succeeds with `newBlk`. -/
def okLedger : SkipBlock → SkipBlock → Config → Except Unit SkipBlock :=
  fun _ _ _ => .ok newBlk

/-- With a decodable payload, the store's Data reference becomes the block. -/
theorem applyUpdateSkipBlock_Data (sid : Storage) (blk : SkipBlock) (c : Config)
    (h : blk.payload = some c) : (applyUpdateSkipBlock sid blk).Data = blk := by
  simp [applyUpdateSkipBlock, h]

/-- The commit block never produces the unmet-quorum result. -/
theorem commitStep_snd_ne_ok_none
    (proposeData : SkipBlock → SkipBlock → Config → Except Unit SkipBlock)
    (proposed : Config) (sid : Storage) :
    (commitStep proposeData proposed sid).2 ≠ Except.ok none := by
  unfold commitStep
  cases h : proposeData sid.Root sid.Data proposed with
  | error e => simp
  | ok latest => cases hp : latest.payload <;> simp [hp]

/-- The returned component of the commit block depends on the store only
through its Root and Data chain references. -/
theorem commitStep_snd_congr
    (proposeData : SkipBlock → SkipBlock → Config → Except Unit SkipBlock)
    (proposed : Config) (sid1 sid2 : Storage)
    (hR : sid1.Root = sid2.Root) (hD : sid1.Data = sid2.Data) :
    (commitStep proposeData proposed sid1).2 = (commitStep proposeData proposed sid2).2 := by
  unfold commitStep
  rw [hR, hD]
  cases h : proposeData sid2.Root sid2.Data proposed with
  | error e => rfl
  | ok latest =>
      cases hp : latest.payload with
      | none => simp [hp]
      | some c => simp [applyUpdateSkipBlock, hp]

/-- ProposeVote under passing validation: the store records the vote and the
call ends in the commit block exactly when the recorded votes reach the
quorum condition, else in the empty result. -/
theorem ProposeVote_validated (verify : Pub → Hsh → Sig → Bool) (hashConfig : Config → Hsh)
    (proposeData : SkipBlock → SkipBlock → Config → Except Unit SkipBlock)
    (sid : Storage) (signer : String) (signature : Option Sig)
    (proposed : Config) (owner : Pub)
    (hp : sid.Proposed = some proposed)
    (hown : mlookup sid.Latest.Device signer = some owner)
    (hnew : mcontainsKey sid.Votes signer = false)
    (hsig : ∀ s, signature = some s → verify owner (hashConfig proposed) s = true) :
    ProposeVote verify hashConfig proposeData sid signer signature =
      if quorumReached (applyProposeVoteMsg sid signer signature)
      then commitStep proposeData proposed (applyProposeVoteMsg sid signer signature)
      else (applyProposeVoteMsg sid signer signature, Except.ok none) := by
  unfold ProposeVote
  rw [hp, hown]
  cases signature with
  | none => simp [hnew]
  | some s => simp [hnew, hsig s rfl]

/-- When the threshold exceeds the device count and the vote keys are
duplicate-free device names, the quorum condition holds exactly when every
device has voted. -/
theorem quorumReached_of_threshold_gt (sid : Storage)
    (hthr : sid.Latest.Device.length < sid.Latest.Threshold)
    (hnodupV : (mkeys sid.Votes).Nodup)
    (hnodupD : (mkeys sid.Latest.Device).Nodup)
    (hsub : ∀ k ∈ mkeys sid.Votes, k ∈ mkeys sid.Latest.Device) :
    (quorumReached sid = true ↔ ∀ d ∈ mkeys sid.Latest.Device, d ∈ mkeys sid.Votes) := by
  have hlenV : (mkeys sid.Votes).length = sid.Votes.length := by simp [mkeys]
  have hlenD : (mkeys sid.Latest.Device).length = sid.Latest.Device.length := by simp [mkeys]
  have hle : (mkeys sid.Votes).length ≤ (mkeys sid.Latest.Device).length :=
    (hnodupV.subperm fun a ha => hsub a ha).length_le
  have hnotthr : ¬ sid.Latest.Threshold ≤ sid.Votes.length := by omega
  simp only [quorumReached, Bool.or_eq_true, decide_eq_true_eq, beq_iff_eq]
  constructor
  · rintro (h | h)
    · exact absurd h hnotthr
    · intro d hd
      have hperm : List.Perm (mkeys sid.Votes) (mkeys sid.Latest.Device) :=
        (hnodupV.subperm fun a ha => hsub a ha).perm_of_length_le (by omega)
      exact hperm.mem_iff.mpr hd
  · intro hall
    right
    have h2 : (mkeys sid.Latest.Device).length ≤ (mkeys sid.Votes).length :=
      (hnodupD.subperm fun a ha => hall a ha).length_le
    omega

/-- C2 counterexample: applying the UpdateSkipBlock event to a concrete
replica store holding one recorded vote leaves the Votes map non-empty — the
`*UpdateSkipBlock` arm of Service.Propagate never clears Votes, contradicting
the claim that the commit event sets Votes to empty. -/
theorem c2_votes_not_cleared :
    (applyUpdateSkipBlock sidB newBlk).Votes = [("b", none)]
    ∧ (applyUpdateSkipBlock sidB newBlk).Votes ≠ [] := by
  exact ⟨rfl, by decide⟩

/-- C2 (amended): applying the InstallCommitted (UpdateSkipBlock) event with
a decodable payload replaces Latest with the decoded config, sets Proposed to
empty and updates the data chain reference to the new block, while the Votes
map (and the root reference) carry over unchanged. -/
theorem c2_install_committed_amended (sid : Storage) (blk : SkipBlock) (c : Config)
    (h : blk.payload = some c) :
    applyUpdateSkipBlock sid blk = { sid with Latest := c, Proposed := none, Data := blk }
    ∧ (applyUpdateSkipBlock sid blk).Votes = sid.Votes := by
  constructor
  · simp [applyUpdateSkipBlock, h]
  · simp [applyUpdateSkipBlock, h]

/-- C2 amended witness at a concrete store and block. -/
theorem c2_install_committed_amended_witness :
    newBlk.payload = some cfgNew
    ∧ (applyUpdateSkipBlock sidB newBlk =
          { sidB with Latest := cfgNew, Proposed := none, Data := newBlk }
        ∧ (applyUpdateSkipBlock sidB newBlk).Votes = sidB.Votes) :=
  ⟨rfl, c2_install_committed_amended sidB newBlk cfgNew rfl⟩

/-- C3: on a store of a known identity whose Proposed config is nil,
ProposeVote does not return the NoProposal error: service.go line 152
evaluates `sid.Proposed.Device` as a logging argument before any check, which
is a nil-pointer dereference panic, and makes the nil-proposal check of line
157 dead code.  Evaluated here at a concrete store whose Latest.Device
contains the signer. -/
theorem c3_nil_proposed_panics :
    ProposeVote alwaysTrue zeroHash okLedger sidNoProp "a" (some 5)
      = (sidNoProp, Except.error VoteErr.nilDerefPanic)
    ∧ VoteErr.nilDerefPanic ≠ VoteErr.noProposal := by
  exact ⟨rfl, by decide⟩

/-- C6 counterexample: a vote by a signer absent from Latest.Device is not
rejected with SignerUnknown when Proposed is nil — the call panics on the
nil dereference of line 152 before the signer check runs. -/
theorem c6_unknown_signer_counterexample :
    ProposeVote alwaysTrue zeroHash okLedger sidNoProp "zz" none
      = (sidNoProp, Except.error VoteErr.nilDerefPanic)
    ∧ VoteErr.nilDerefPanic ≠ VoteErr.signerUnknown := by
  exact ⟨rfl, by decide⟩

/-- C6 (amended): whenever a proposal is outstanding (Proposed non-nil), a
ProposeVote whose signer is absent from Latest.Device is rejected with
SignerUnknown and the store is returned unchanged, so no vote is recorded. -/
theorem c6_unknown_signer_amended (verify : Pub → Hsh → Sig → Bool)
    (hashConfig : Config → Hsh)
    (proposeData : SkipBlock → SkipBlock → Config → Except Unit SkipBlock)
    (sid : Storage) (signer : String) (signature : Option Sig) (proposed : Config)
    (hp : sid.Proposed = some proposed)
    (hmiss : mlookup sid.Latest.Device signer = none) :
    ProposeVote verify hashConfig proposeData sid signer signature
      = (sid, Except.error VoteErr.signerUnknown) := by
  unfold ProposeVote
  rw [hp, hmiss]

/-- C6 amended witness at a concrete store and unknown signer. -/
theorem c6_unknown_signer_amended_witness :
    (sidB.Proposed = some cfgNew ∧ mlookup sidB.Latest.Device "zz" = none)
    ∧ ProposeVote alwaysTrue zeroHash okLedger sidB "zz" none
        = (sidB, Except.error VoteErr.signerUnknown) :=
  ⟨⟨rfl, by decide⟩,
    c6_unknown_signer_amended alwaysTrue zeroHash okLedger sidB "zz" none cfgNew rfl
      (by decide)⟩

/-- C7: during a proposal round (Proposed outstanding, and the signer a
device of Latest as invariant I2 guarantees for recorded votes), a further
ProposeVote from a signer already recorded in Votes is rejected with
DuplicateVote, the store is returned unchanged and the size of Votes is
unchanged. -/
theorem c7_duplicate_vote_rejected (verify : Pub → Hsh → Sig → Bool)
    (hashConfig : Config → Hsh)
    (proposeData : SkipBlock → SkipBlock → Config → Except Unit SkipBlock)
    (sid : Storage) (signer : String) (signature : Option Sig)
    (proposed : Config) (owner : Pub)
    (hp : sid.Proposed = some proposed)
    (hown : mlookup sid.Latest.Device signer = some owner)
    (hdup : mcontainsKey sid.Votes signer = true) :
    ProposeVote verify hashConfig proposeData sid signer signature
      = (sid, Except.error VoteErr.duplicateVote)
    ∧ (ProposeVote verify hashConfig proposeData sid signer signature).1.Votes.length
        = sid.Votes.length := by
  have h : ProposeVote verify hashConfig proposeData sid signer signature
      = (sid, Except.error VoteErr.duplicateVote) := by
    unfold ProposeVote
    rw [hp, hown]
    simp [hdup]
  exact ⟨h, by rw [h]⟩

/-- C7 witness: the signer "b" has already voted on the concrete store. -/
theorem c7_duplicate_vote_rejected_witness :
    (sidB.Proposed = some cfgNew
      ∧ mlookup sidB.Latest.Device "b" = some 2
      ∧ mcontainsKey sidB.Votes "b" = true)
    ∧ (ProposeVote alwaysTrue zeroHash okLedger sidB "b" (some 9)
          = (sidB, Except.error VoteErr.duplicateVote)
        ∧ (ProposeVote alwaysTrue zeroHash okLedger sidB "b" (some 9)).1.Votes.length
            = sidB.Votes.length) :=
  ⟨⟨rfl, by decide, by decide⟩,
    c7_duplicate_vote_rejected alwaysTrue zeroHash okLedger sidB "b" (some 9) cfgNew 2
      rfl (by decide) (by decide)⟩

/-- C8: applying a SetProposed (ProposeSend) event overwrites Proposed with
the candidate and resets Votes to the empty map — no signer has a recorded
vote afterwards, so no vote of a prior round survives — while Latest and the
chain references are untouched. -/
theorem c8_propose_send_resets (sid : Storage) (c : Config) :
    (applyProposeSend sid c).Proposed = some c
    ∧ (applyProposeSend sid c).Votes = []
    ∧ (∀ signer : String, mcontainsKey (applyProposeSend sid c).Votes signer = false)
    ∧ (applyProposeSend sid c).Latest = sid.Latest
    ∧ (applyProposeSend sid c).Root = sid.Root
    ∧ (applyProposeSend sid c).Data = sid.Data :=
  ⟨rfl, rfl, fun _ => rfl, rfl, rfl, rfl⟩

/-- C9: applying an InstallCommitted (UpdateSkipBlock) event twice in
succession yields the same store as applying it once, whether or not the
block payload decodes. -/
theorem c9_update_skipblock_idempotent (sid : Storage) (blk : SkipBlock) :
    applyUpdateSkipBlock (applyUpdateSkipBlock sid blk) blk
      = applyUpdateSkipBlock sid blk := by
  cases h : blk.payload with
  | none => simp [applyUpdateSkipBlock, h]
  | some c => simp [applyUpdateSkipBlock, h]

/-- C10: applying the propagated RecordVote (ProposeVote) event for a signer
already present in Votes overwrites the stored signature with the new one
(last writer wins) and leaves the size of Votes unchanged; re-applying an
identical vote leaves the store state unchanged. -/
theorem c10_record_vote_overwrite (sid : Storage) (signer : String)
    (signature : Option Sig)
    (hdup : mcontainsKey sid.Votes signer = true) :
    mlookup (applyProposeVoteMsg sid signer signature).Votes signer = some signature
    ∧ (applyProposeVoteMsg sid signer signature).Votes.length = sid.Votes.length
    ∧ applyProposeVoteMsg (applyProposeVoteMsg sid signer signature) signer signature
        = applyProposeVoteMsg sid signer signature := by
  refine ⟨mlookup_minsert_self _ _ _, length_minsert_of_contains _ _ _ hdup, ?_⟩
  simp [applyProposeVoteMsg, minsert_idem]

/-- C10 witness: overwriting the recorded rejection of "b" with a concrete
signature on the concrete store. -/
theorem c10_record_vote_overwrite_witness :
    mcontainsKey sidB.Votes "b" = true
    ∧ (mlookup (applyProposeVoteMsg sidB "b" (some 7)).Votes "b" = some (some 7)
        ∧ (applyProposeVoteMsg sidB "b" (some 7)).Votes.length = sidB.Votes.length
        ∧ applyProposeVoteMsg (applyProposeVoteMsg sidB "b" (some 7)) "b" (some 7)
            = applyProposeVoteMsg sidB "b" (some 7)) :=
  ⟨by decide, c10_record_vote_overwrite sidB "b" (some 7) (by decide)⟩

/-- C5 counterexample: with a target server whose registry already holds the
id of the created data chain (hash 1), AddIdentity succeeds — it does not
return a DuplicateIdentity error; the existing store survives untouched in
the returned replica state. -/
theorem c5_duplicate_not_error :
    AddIdentity (Except.ok rootBlk) (fun r => Except.ok (r, dataBlk)) [[(1, sidB)]] cfgAB
      = Except.ok ([[(1, sidB)]], rootBlk, dataBlk) := by
  rfl

/-- C5 (amended): AddIdentity returns no DuplicateIdentity error — when both
chain creations succeed it always replies with the chain references, the
install event being merely broadcast; and on any target registry that already
holds the new id, the propagated install event is ignored, so the existing
store is never overwritten. -/
theorem c5_add_identity_amended (createRoster : Except Unit SkipBlock)
    (createData : SkipBlock → Except Unit (SkipBlock × SkipBlock))
    (replicas : List Registry) (config : Config)
    (root0 root data : SkipBlock) (reg : Registry)
    (hcr : createRoster = Except.ok root0)
    (hcd : createData root0 = Except.ok (root, data))
    (hmem : mcontainsKey reg data.hash = true) :
    AddIdentity createRoster createData replicas config
      = Except.ok
          (replicas.map (fun r => Propagate r (.propagateIdentity
              { Latest := config, Proposed := none, Votes := [], Root := root, Data := data })),
            root, data)
    ∧ Propagate reg (.propagateIdentity
          { Latest := config, Proposed := none, Votes := [], Root := root, Data := data })
        = reg := by
  constructor
  · unfold AddIdentity
    rw [hcr]
    simp [hcd]
  · unfold Propagate
    simp [hmem]

/-- C5 amended witness at the concrete duplicate-id scenario. -/
theorem c5_add_identity_amended_witness :
    ((Except.ok rootBlk : Except Unit SkipBlock) = Except.ok rootBlk
      ∧ (fun (r : SkipBlock) => Except.ok (r, dataBlk)) rootBlk
          = (Except.ok (rootBlk, dataBlk) : Except Unit (SkipBlock × SkipBlock))
      ∧ mcontainsKey [(1, sidB)] dataBlk.hash = true)
    ∧ (AddIdentity (Except.ok rootBlk) (fun r => Except.ok (r, dataBlk)) [[(1, sidB)]] cfgAB
        = Except.ok
            ([[(1, sidB)]].map (fun r => Propagate r (.propagateIdentity
                { Latest := cfgAB, Proposed := none, Votes := [], Root := rootBlk,
                  Data := dataBlk })),
              rootBlk, dataBlk)
      ∧ Propagate [(1, sidB)] (.propagateIdentity
            { Latest := cfgAB, Proposed := none, Votes := [], Root := rootBlk,
              Data := dataBlk })
          = [(1, sidB)]) :=
  ⟨⟨rfl, rfl, by decide⟩,
    c5_add_identity_amended (Except.ok rootBlk) (fun r => Except.ok (r, dataBlk))
      [[(1, sidB)]] cfgAB rootBlk rootBlk dataBlk [(1, sidB)] rfl rfl (by decide)⟩

/-- C4: a ProposeVote carrying a null signature is recorded without any
signature verification — the call's outcome is independent of the verifier —
and it counts toward the quorum condition identically to an approving vote:
the vote is recorded (with a null signature), the resulting Votes size and
quorum decision coincide with those after a validly signed vote, and the
call's returned component (committed block, or empty result awaiting more
votes) is the same as for the approving vote. -/
theorem c4_null_signature_vote (verifyA verifyB verify : Pub → Hsh → Sig → Bool)
    (hashConfig : Config → Hsh)
    (proposeData : SkipBlock → SkipBlock → Config → Except Unit SkipBlock)
    (sid : Storage) (signer : String) (proposed : Config) (owner : Pub) (s : Sig)
    (hp : sid.Proposed = some proposed)
    (hown : mlookup sid.Latest.Device signer = some owner)
    (hnew : mcontainsKey sid.Votes signer = false)
    (hval : verify owner (hashConfig proposed) s = true) :
    ProposeVote verifyA hashConfig proposeData sid signer none
      = ProposeVote verifyB hashConfig proposeData sid signer none
    ∧ mlookup ((ProposeVote verify hashConfig proposeData sid signer none).1).Votes signer
        = some none
    ∧ (applyProposeVoteMsg sid signer none).Votes.length
        = (applyProposeVoteMsg sid signer (some s)).Votes.length
    ∧ quorumReached (applyProposeVoteMsg sid signer none)
        = quorumReached (applyProposeVoteMsg sid signer (some s))
    ∧ (ProposeVote verify hashConfig proposeData sid signer none).2
        = (ProposeVote verify hashConfig proposeData sid signer (some s)).2 := by
  have hA := ProposeVote_validated verifyA hashConfig proposeData sid signer none proposed
    owner hp hown hnew (fun t ht => Option.noConfusion ht)
  have hB := ProposeVote_validated verifyB hashConfig proposeData sid signer none proposed
    owner hp hown hnew (fun t ht => Option.noConfusion ht)
  have hN := ProposeVote_validated verify hashConfig proposeData sid signer none proposed
    owner hp hown hnew (fun t ht => Option.noConfusion ht)
  have hS := ProposeVote_validated verify hashConfig proposeData sid signer (some s) proposed
    owner hp hown hnew (fun t ht => by rw [← Option.some_inj.mp ht]; exact hval)
  have happN : (applyProposeVoteMsg sid signer none).Votes
      = sid.Votes ++ [(signer, none)] := by
    simp [applyProposeVoteMsg, minsert_of_not_contains _ _ _ hnew]
  have happS : (applyProposeVoteMsg sid signer (some s)).Votes
      = sid.Votes ++ [(signer, some s)] := by
    simp [applyProposeVoteMsg, minsert_of_not_contains _ _ _ hnew]
  have hlen : (applyProposeVoteMsg sid signer none).Votes.length
      = (applyProposeVoteMsg sid signer (some s)).Votes.length := by
    rw [happN, happS]
    simp
  have hq : quorumReached (applyProposeVoteMsg sid signer none)
      = quorumReached (applyProposeVoteMsg sid signer (some s)) := by
    unfold quorumReached
    rw [hlen]
    rfl
  refine ⟨by rw [hA, hB], ?_, hlen, hq, ?_⟩
  · rw [hN]
    by_cases hquo : quorumReached (applyProposeVoteMsg sid signer none) = true
    · rw [if_pos hquo]
      unfold commitStep
      cases hpd : proposeData (applyProposeVoteMsg sid signer none).Root
          (applyProposeVoteMsg sid signer none).Data proposed with
      | error e => simp [applyProposeVoteMsg, mlookup_minsert_self]
      | ok latest =>
          cases hpl : latest.payload with
          | none => simpa [hpl, applyProposeVoteMsg] using
              mlookup_minsert_self sid.Votes signer (none : Option Sig)
          | some c =>
              simp only [hpl]
              simp [applyUpdateSkipBlock, hpl, applyProposeVoteMsg,
                mlookup_minsert_self]
    · rw [if_neg hquo]
      simpa [applyProposeVoteMsg] using
        mlookup_minsert_self sid.Votes signer (none : Option Sig)
  · rw [hN, hS, ← hq]
    by_cases hquo : quorumReached (applyProposeVoteMsg sid signer none) = true
    · rw [if_pos hquo, if_pos hquo]
      exact commitStep_snd_congr proposeData proposed _ _ rfl rfl
    · rw [if_neg hquo, if_neg hquo]

/-- C4 witness: a null vote by "a" on the concrete store, compared with an
approving vote carrying signature 5 under the all-accepting verifier. -/
theorem c4_null_signature_vote_witness :
    (sidB.Proposed = some cfgNew
      ∧ mlookup sidB.Latest.Device "a" = some 1
      ∧ mcontainsKey sidB.Votes "a" = false
      ∧ alwaysTrue 1 (zeroHash cfgNew) 5 = true)
    ∧ (ProposeVote alwaysFalse zeroHash okLedger sidB "a" none
          = ProposeVote alwaysTrue zeroHash okLedger sidB "a" none
        ∧ mlookup ((ProposeVote alwaysTrue zeroHash okLedger sidB "a" none).1).Votes "a"
            = some none
        ∧ (applyProposeVoteMsg sidB "a" none).Votes.length
            = (applyProposeVoteMsg sidB "a" (some 5)).Votes.length
        ∧ quorumReached (applyProposeVoteMsg sidB "a" none)
            = quorumReached (applyProposeVoteMsg sidB "a" (some 5))
        ∧ (ProposeVote alwaysTrue zeroHash okLedger sidB "a" none).2
            = (ProposeVote alwaysTrue zeroHash okLedger sidB "a" (some 5)).2) :=
  ⟨⟨rfl, by decide, by decide, rfl⟩,
    c4_null_signature_vote alwaysFalse alwaysTrue alwaysTrue zeroHash okLedger sidB "a"
      cfgNew 1 5 rfl (by decide) (by decide) rfl⟩

/-- C1: under passing validation (known signer, outstanding proposal, fresh
vote, null or verifying signature), the commit step is triggered if and only
if, after the vote is propagated (locally recorded by
`applyProposeVoteMsg`), the number of recorded votes is at least
Latest.Threshold or equals the number of devices of Latest: ProposeVote
reduces to the commit block exactly under the quorum condition, the empty
result is returned exactly when the quorum condition fails, and when the
threshold exceeds the device count the quorum condition holds exactly when
every device has voted — never earlier — given duplicate-free vote keys
drawn from the (duplicate-free) device names. -/
theorem c1_commit_iff_quorum (verify : Pub → Hsh → Sig → Bool)
    (hashConfig : Config → Hsh)
    (proposeData : SkipBlock → SkipBlock → Config → Except Unit SkipBlock)
    (sid : Storage) (signer : String) (signature : Option Sig)
    (proposed : Config) (owner : Pub)
    (hp : sid.Proposed = some proposed)
    (hown : mlookup sid.Latest.Device signer = some owner)
    (hnew : mcontainsKey sid.Votes signer = false)
    (hsig : ∀ s, signature = some s → verify owner (hashConfig proposed) s = true) :
    (ProposeVote verify hashConfig proposeData sid signer signature =
        if quorumReached (applyProposeVoteMsg sid signer signature)
        then commitStep proposeData proposed (applyProposeVoteMsg sid signer signature)
        else (applyProposeVoteMsg sid signer signature, Except.ok none))
    ∧ ((ProposeVote verify hashConfig proposeData sid signer signature).2 = Except.ok none
        ↔ quorumReached (applyProposeVoteMsg sid signer signature) = false)
    ∧ (sid.Latest.Device.length < sid.Latest.Threshold →
        (mkeys sid.Votes).Nodup →
        (mkeys sid.Latest.Device).Nodup →
        (∀ k ∈ mkeys sid.Votes, k ∈ mkeys sid.Latest.Device) →
        (quorumReached (applyProposeVoteMsg sid signer signature) = true ↔
          ∀ d ∈ mkeys sid.Latest.Device,
            d ∈ mkeys (applyProposeVoteMsg sid signer signature).Votes)) := by
  have hmain := ProposeVote_validated verify hashConfig proposeData sid signer signature
    proposed owner hp hown hnew hsig
  have hkeys : mkeys (applyProposeVoteMsg sid signer signature).Votes
      = mkeys sid.Votes ++ [signer] := by
    simp [applyProposeVoteMsg, minsert_of_not_contains _ _ _ hnew, mkeys]
  refine ⟨hmain, ?_, ?_⟩
  · rw [hmain]
    by_cases hq : quorumReached (applyProposeVoteMsg sid signer signature) = true
    · rw [if_pos hq]
      simp only [hq, Bool.true_eq_false, iff_false]
      exact commitStep_snd_ne_ok_none _ _ _
    · rw [if_neg hq]
      rw [Bool.not_eq_true] at hq
      simp [hq]
  · intro hthr hnV hnD hsub
    have hsignerD : signer ∈ mkeys sid.Latest.Device := mem_mkeys_of_mlookup _ _ _ hown
    have hsignerV : signer ∉ mkeys sid.Votes := by
      intro hmem
      have hcontra := (mcontainsKey_iff_mem sid.Votes signer).mpr hmem
      rw [hnew] at hcontra
      exact Bool.false_ne_true hcontra
    have h := quorumReached_of_threshold_gt (applyProposeVoteMsg sid signer signature)
      (by simpa [applyProposeVoteMsg] using hthr)
      (by rw [hkeys]
          simp only [List.nodup_append, List.nodup_cons, List.not_mem_nil,
            not_false_iff, List.nodup_nil, and_true, true_and]
          exact ⟨hnV, by simpa using hsignerV⟩)
      (by simpa [applyProposeVoteMsg] using hnD)
      (by rw [hkeys]
          intro k hk
          rcases List.mem_append.mp hk with hk | hk
          · exact hsub k hk
          · rw [List.mem_singleton] at hk
            subst hk
            exact hsignerD)
    simpa [applyProposeVoteMsg] using h

/-- C1 witness: on the concrete store (threshold 3, two devices, "b" already
recorded), a null vote by "a" reaches full participation and therefore the
commit path, discharging all hypotheses at concrete values. -/
theorem c1_commit_iff_quorum_witness :
    (sidB.Proposed = some cfgNew
      ∧ mlookup sidB.Latest.Device "a" = some 1
      ∧ mcontainsKey sidB.Votes "a" = false)
    ∧ ((ProposeVote alwaysFalse zeroHash okLedger sidB "a" none =
          if quorumReached (applyProposeVoteMsg sidB "a" none)
          then commitStep okLedger cfgNew (applyProposeVoteMsg sidB "a" none)
          else (applyProposeVoteMsg sidB "a" none, Except.ok none))
      ∧ ((ProposeVote alwaysFalse zeroHash okLedger sidB "a" none).2 = Except.ok none
          ↔ quorumReached (applyProposeVoteMsg sidB "a" none) = false)
      ∧ (sidB.Latest.Device.length < sidB.Latest.Threshold →
          (mkeys sidB.Votes).Nodup →
          (mkeys sidB.Latest.Device).Nodup →
          (∀ k ∈ mkeys sidB.Votes, k ∈ mkeys sidB.Latest.Device) →
          (quorumReached (applyProposeVoteMsg sidB "a" none) = true ↔
            ∀ d ∈ mkeys sidB.Latest.Device,
              d ∈ mkeys (applyProposeVoteMsg sidB "a" none).Votes))) :=
  ⟨⟨rfl, by decide, by decide⟩,
    c1_commit_iff_quorum alwaysFalse zeroHash okLedger sidB "a" none cfgNew 1
      rfl (by decide) (by decide) (fun s h => Option.noConfusion h)⟩

end Identity
